import Mathlib

/-!
Verification of the `easy-ecc-rs` repository: a Rust wrapper around the
`easy-ecc` C library exposing ECDSA keygen / sign / verify over the NIST
P-256 (`secp256r1`) curve with fixed-size byte buffers.

The Rust sources under `src/` (`src/secp256r1.rs`, `src/lib.rs`) are thin
FFI glue: they declare the buffer types `Public` (33 bytes), `Secret`
(32 bytes) and `Signature` (64 bytes) and forward to the C routines
`ecc_make_key`, `ecdsa_sign`, `ecdsa_verify`, mapping the C return value
`1` to `Ok(())` and everything else to `Err(())`.  The cryptographic core
itself (the C file `dep/easy-ecc/ecc.c`) is a git submodule and is not
part of the sources, so the ECDSA protocol layer below is modelled from
the specification.
-/

set_option maxRecDepth 4000

/-! ## Fast modular exponentiation

`powMod f b e m` computes `b ^ e % m` by binary exponentiation with
structural fuel `f` (correct whenever `e < 2 ^ f`), so that the kernel can
evaluate it on 256-bit operands.  It is used both by the primality
certificates for the curve order and by the executable P-256 model
(modular inverse and square roots via Fermat exponentiation). -/
def powMod : ℕ → ℕ → ℕ → ℕ → ℕ
  | 0, _, _, m => 1 % m
  | f + 1, b, e, m =>
    if e = 0 then 1 % m
    else
      let h := powMod f (b * b % m) (e / 2) m
      if e % 2 = 1 then b * h % m else h

theorem powMod_spec (f : ℕ) : ∀ b e m : ℕ, e < 2 ^ f → powMod f b e m = b ^ e % m := by
  induction f with
  | zero =>
    intro b e m he
    have h0 : e = 0 := Nat.lt_one_iff.mp (by simpa using he)
    subst h0
    simp [powMod]
  | succ f ih =>
    intro b e m he
    by_cases h0 : e = 0
    · subst h0; simp [powMod]
    · have hlt : e / 2 < 2 ^ f := by
        have h2 : (2 : ℕ) ^ (f + 1) = 2 ^ f * 2 := by ring
        rw [h2] at he
        exact Nat.div_lt_of_lt_mul (by omega)
      have hrec : powMod f (b * b % m) (e / 2) m = (b * b) ^ (e / 2) % m := by
        rw [ih (b * b % m) (e / 2) m hlt, ← Nat.pow_mod]
      have hsplit : (b * b) ^ (e / 2) = b ^ (2 * (e / 2)) := by
        rw [two_mul, pow_add, ← mul_pow]
      have hdm : 2 * (e / 2) + e % 2 = e := Nat.div_add_mod e 2
      by_cases hpar : e % 2 = 1
      · have he' : e = 2 * (e / 2) + 1 := by omega
        simp only [powMod, if_neg h0, hpar, if_pos rfl]
        rw [hrec, hsplit]
        calc b * (b ^ (2 * (e / 2)) % m) % m
            = b % m * (b ^ (2 * (e / 2)) % m % m) % m := by rw [Nat.mul_mod]
          _ = b % m * (b ^ (2 * (e / 2)) % m) % m := by rw [Nat.mod_mod_of_dvd _ dvd_rfl]
          _ = b * b ^ (2 * (e / 2)) % m := by rw [← Nat.mul_mod]
          _ = b ^ e % m := by conv_rhs => rw [he', pow_succ, mul_comm]
      · have hpar0 : e % 2 = 0 := by omega
        have he' : e = 2 * (e / 2) := by omega
        simp only [powMod, if_neg h0, hpar, if_false, ite_false]
        rw [hrec, hsplit, ← he']

/-! ## Primality certificates for the curve order

The round-trip theorem needs `ZMod n` to be a field, where `n` is the
P-256 group order, hence a primality proof for `n`.  We use Mathlib's
`lucas_primality` with explicit prime factorisations of `n - 1`
(and, recursively, of the larger cofactors), evaluating the modular
exponentiations through `powMod`. -/

theorem prime_mem_of_dvd_prod (q : ℕ) (hq : q.Prime) :
    ∀ l : List ℕ, (∀ x ∈ l, x.Prime) → q ∣ l.foldr (· * ·) 1 → q ∈ l := by
  intro l
  induction l with
  | nil =>
    intro _ hdvd
    have h1 : q ≤ 1 := Nat.le_of_dvd one_pos (by simpa using hdvd)
    have h2 := hq.two_le
    omega
  | cons x xs ih =>
    intro hl hdvd
    rcases (Nat.Prime.dvd_mul hq).mp (by simpa using hdvd) with h | h
    · have hx : x.Prime := hl x (List.mem_cons_self x xs)
      have : q = x := (Nat.prime_dvd_prime_iff_eq hq hx).mp h
      exact this ▸ List.mem_cons_self x xs
    · exact List.mem_cons_of_mem x (ih (fun y hy => hl y (List.mem_cons_of_mem x hy)) h)

theorem zmod_pow_eq_one_of_powMod (P a f : ℕ) (hf : P - 1 < 2 ^ f)
    (h : powMod f a (P - 1) P = 1 % P) : ((a : ℕ) : ZMod P) ^ (P - 1) = 1 := by
  have := powMod_spec f a (P - 1) P hf
  rw [this] at h
  have : ((a ^ (P - 1) % P : ℕ) : ZMod P) = ((1 % P : ℕ) : ZMod P) := by rw [h]
  rwa [ZMod.natCast_mod, ZMod.natCast_mod, Nat.cast_pow, Nat.cast_one] at this

theorem zmod_pow_ne_one_of_powMod (P a e f : ℕ) (hf : e < 2 ^ f)
    (h : powMod f a e P ≠ 1 % P) : ((a : ℕ) : ZMod P) ^ e ≠ 1 := by
  intro hcon
  apply h
  rw [powMod_spec f a e P hf]
  have h1 : ((a ^ e % P : ℕ) : ZMod P) = ((1 : ℕ) : ZMod P) := by
    rw [ZMod.natCast_mod, Nat.cast_pow, Nat.cast_one]
    exact hcon
  have h2 := (ZMod.natCast_eq_natCast_iff' _ _ _).mp h1
  simpa using h2

theorem lucas_cert (P a : ℕ) (l : List ℕ)
    (hprod : l.foldr (· * ·) 1 = P - 1)
    (hl : ∀ x ∈ l, x.Prime)
    (ha : ((a : ℕ) : ZMod P) ^ (P - 1) = 1)
    (hq : ∀ q ∈ l, ((a : ℕ) : ZMod P) ^ ((P - 1) / q) ≠ 1) : P.Prime := by
  apply lucas_primality P ((a : ℕ) : ZMod P) ha
  intro q hqp hqd
  exact hq q (prime_mem_of_dvd_prod q hqp l hl (hprod ▸ hqd))

theorem prime_191039911 : Nat.Prime 191039911 := by
  apply lucas_cert 191039911 3 [2, 3, 5, 41, 155317]
  · decide
  · intro x hx
    fin_cases hx <;> norm_num
  · exact zmod_pow_eq_one_of_powMod _ _ 32 (by norm_num) (by decide)
  · intro q hq
    fin_cases hq <;>
      exact zmod_pow_ne_one_of_powMod _ _ _ 32 (by norm_num) (by decide)

theorem prime_311245691 : Nat.Prime 311245691 := by
  apply lucas_cert 311245691 2 [2, 5, 7, 17, 29, 29, 311]
  · decide
  · intro x hx
    fin_cases hx <;> norm_num
  · exact zmod_pow_eq_one_of_powMod _ _ 32 (by norm_num) (by decide)
  · intro q hq
    fin_cases hq <;>
      exact zmod_pow_ne_one_of_powMod _ _ _ 32 (by norm_num) (by decide)

theorem prime_622491383 : Nat.Prime 622491383 := by
  apply lucas_cert 622491383 5 [2, 311245691]
  · decide
  · intro x hx
    fin_cases hx <;> first
      | exact prime_311245691
      | norm_num
  · exact zmod_pow_eq_one_of_powMod _ _ 32 (by norm_num) (by decide)
  · intro q hq
    fin_cases hq <;>
      exact zmod_pow_ne_one_of_powMod _ _ _ 32 (by norm_num) (by decide)

theorem prime_187019741 : Nat.Prime 187019741 := by
  apply lucas_cert 187019741 2 [2, 2, 5, 9350987]
  · decide
  · intro x hx
    fin_cases hx <;> norm_num
  · exact zmod_pow_eq_one_of_powMod _ _ 32 (by norm_num) (by decide)
  · intro q hq
    fin_cases hq <;>
      exact zmod_pow_ne_one_of_powMod _ _ _ 32 (by norm_num) (by decide)

theorem prime_1002328039319 : Nat.Prime 1002328039319 := by
  apply lucas_cert 1002328039319 19 [2, 126241, 3969899]
  · decide
  · intro x hx
    fin_cases hx <;> norm_num
  · exact zmod_pow_eq_one_of_powMod _ _ 64 (by norm_num) (by decide)
  · intro q hq
    fin_cases hq <;>
      exact zmod_pow_ne_one_of_powMod _ _ _ 64 (by norm_num) (by decide)

theorem prime_208150935158385979 : Nat.Prime 208150935158385979 := by
  apply lucas_cert 208150935158385979 2 [2, 3, 11, 43, 127, 3023, 191039911]
  · decide
  · intro x hx
    fin_cases hx <;> first
      | exact prime_191039911
      | norm_num
  · exact zmod_pow_eq_one_of_powMod _ _ 64 (by norm_num) (by decide)
  · intro q hq
    fin_cases hq <;>
      exact zmod_pow_ne_one_of_powMod _ _ _ 64 (by norm_num) (by decide)

theorem prime_2624747550333869278416773953 : Nat.Prime 2624747550333869278416773953 := by
  apply lucas_cert 2624747550333869278416773953 7
    [2, 2, 2, 2, 2, 2, 3, 3, 1297, 16879, 208150935158385979]
  · decide
  · intro x hx
    fin_cases hx <;> first
      | exact prime_208150935158385979
      | norm_num
  · exact zmod_pow_eq_one_of_powMod _ _ 96 (by norm_num) (by decide)
  · intro q hq
    fin_cases hq <;>
      exact zmod_pow_ne_one_of_powMod _ _ _ 96 (by norm_num) (by decide)

/-- Primality of the `secp256r1` group order
`n = 0xFFFFFFFF00000000FFFFFFFFFFFFFFFFBCE6FAADA7179E84F3B9CAC2FC632551`. -/
theorem prime_secp256r1_order :
    Nat.Prime 115792089210356248762697446949407573529996955224135760342422259061068512044369 := by
  apply lucas_cert _ 7
    [2, 2, 2, 2, 3, 71, 131, 373, 3407, 17449, 38189, 187019741, 622491383,
      1002328039319, 2624747550333869278416773953]
  · decide
  · intro x hx
    fin_cases hx <;> first
      | exact prime_187019741
      | exact prime_622491383
      | exact prime_1002328039319
      | exact prime_2624747550333869278416773953
      | norm_num
  · exact zmod_pow_eq_one_of_powMod _ _ 256 (by norm_num) (by decide)
  · intro q hq
    fin_cases hq <;>
      exact zmod_pow_ne_one_of_powMod _ _ _ 256 (by norm_num) (by decide)

/-! ## The Rust wrapper layer (`src/secp256r1.rs`)

The Rust module defines newtypes over fixed-size byte arrays
(`Public([u8; BYTES+1])`, `Secret([u8; BYTES])`,
`Signature([u8; BYTES*2])` with `BYTES = 32`) and three functions that
forward to the C routines `ecc_make_key` / `ecdsa_sign` / `ecdsa_verify`
and translate the C `int` result through `match rslt with 1 => Ok(()),
_ => Err(())`.  The C routines are FFI imports, so they are modelled as
explicit functional parameters: each takes the caller-visible buffer
state and yields its `int` result together with the new contents of the
buffers it is allowed to write (those passed by `&mut` in Rust and
non-`const` pointer in the C prototype). -/

namespace secp256r1

/-- Size constant of the curve, `const BYTES: usize = 32` in the source. -/
def BYTES : ℕ := 32

/-- A public ecc key: newtype over `[u8; BYTES+1]` (33 bytes). -/
def Public := { l : List ℕ // l.length = BYTES + 1 }

/-- A secret ecc key: newtype over `[u8; BYTES]` (32 bytes). -/
def Secret := { l : List ℕ // l.length = BYTES }

/-- An ecc signature: newtype over `[u8; BYTES*2]` (64 bytes). -/
def Signature := { l : List ℕ // l.length = BYTES * 2 }

/-- Result translation shared by `keygen`, `sign` and `verify`:
`match rslt with 1 => Ok(()), _ => Err(())`. -/
def wrapResult (rslt : Int) : Except Unit Unit :=
  if rslt = 1 then Except.ok () else Except.error ()

/-- The caller-visible buffer state around a call into the wrapper: the
public-key, secret-key, message-digest and signature buffers owned by
the caller. -/
structure CallerState where
  pubBuf : List ℕ
  secBuf : List ℕ
  msgBuf : List ℕ
  sigBuf : List ℕ

/-- Embedding of `keygen(public: &mut Public, secret: &mut Secret)`:
the C routine `ecc_make_key` may write the public and secret buffers
(both passed as mutable pointers) and returns an `int`; the wrapper
translates the result.  `c` is the behaviour of the C routine. -/
def keygen (c : CallerState → Int × List ℕ × List ℕ) (st : CallerState) :
    CallerState × Except Unit Unit :=
  let r := c st
  ({ st with pubBuf := r.2.1, secBuf := r.2.2 }, wrapResult r.1)

/-- Embedding of `sign(key: &Secret, msg: &[u8; BYTES], sig: &mut Signature)`:
`ecdsa_sign` takes the key and digest through `const` pointers and may
write only the signature buffer. -/
def sign (c : CallerState → Int × List ℕ) (st : CallerState) :
    CallerState × Except Unit Unit :=
  let r := c st
  ({ st with sigBuf := r.2 }, wrapResult r.1)

/-- Embedding of `verify(key: &Public, msg: &[u8; BYTES], sig: &Signature)`:
`ecdsa_verify` takes all three arguments through `const` pointers and
writes nothing. -/
def verify (c : CallerState → Int) (st : CallerState) :
    CallerState × Except Unit Unit :=
  (st, wrapResult (c st))

end secp256r1

/-! ## Byte-string codec helpers (spec section 6, Buffer Codec)

Big-endian conversions between byte lists and natural numbers, used for
the fixed-size buffer layouts. -/

/-- Interpret a byte list as a big-endian natural number. -/
def beNat (l : List ℕ) : ℕ := l.foldl (fun a b => a * 256 + b) 0

/-- Encode a natural number as exactly `len` big-endian bytes
(most significant byte first, value taken mod `256 ^ len`). -/
def natToBytesBE : ℕ → ℕ → List ℕ
  | 0, _ => []
  | len + 1, v => natToBytesBE len (v / 256) ++ [v % 256]

theorem natToBytesBE_length (len : ℕ) : ∀ v : ℕ, (natToBytesBE len v).length = len := by
  induction len with
  | zero => intro v; rfl
  | succ len ih =>
    intro v
    simp [natToBytesBE, ih]

/-- Fault taxonomy of the specification (section 7). -/
inductive Fault
  | RandomUnavailable
  | InvalidOperand
  | InvalidSignature
  | MalformedEncoding
deriving DecidableEq, Repr

/-! ## The ECDSA protocol layer, modelled from the spec

The cryptographic core (`dep/easy-ecc/ecc.c`) is a git submodule and not
among the sources, so the protocol layer is modelled from the
specification (sections 3, 4.4, 4.5). -/

namespace Model

/-- Modelled from the spec: the `secp256r1` curve order `n`
(section 3, Scalar: "value in [0, n), n = curve order (a 256-bit
prime)"). -/
def n : ℕ := 115792089210356248762697446949407573529996955224135760342422259061068512044369

instance : Fact (Nat.Prime n) := ⟨prime_secp256r1_order⟩

instance : NeZero n := ⟨Nat.Prime.ne_zero (Fact.out (p := Nat.Prime n))⟩

/-- A scalar modulo the curve order. -/
abbrev Scalar := ZMod n

/-- Modelled from the spec: the P-256 point group.  The missing C core
implements the curve group, which by section 3 ("n = curve order",
identity included, base point `G` a fixed public constant) is cyclic of
prime order `n` generated by `G`; a point is therefore represented by
its discrete logarithm with respect to `G`.  The identity is `0` and
`G` itself is `1`.  The affine x-coordinate map is kept as an arbitrary
parameter `xc` of the protocol functions, since the protocol-level
claims hold for every such map. -/
abbrev Point := ZMod n

/-- The identity (point at infinity). -/
def identity : Point := 0

/-- The base point. -/
def G : Point := 1

/-- Scalar multiplication `k • P` in the cyclic group. -/
def scalarMul (k : Scalar) (P : Point) : Point := k * P

/-- Point addition in the cyclic group. -/
def pointAdd (P Q : Point) : Point := P + Q

/-- Modelled from the spec (section 4.5, Sign): interpret the digest as
an integer `e` reduced mod `n`; with nonce `k` (drawn by the Random
Scalar Source, passed explicitly), compute `R = k·G`, `r = R.x mod n`;
if `r = 0` the draw is rejected (`none`, the caller retries with a
fresh nonce); compute `s = k⁻¹·(e + r·d) mod n`; if `s = 0` the draw is
likewise rejected; otherwise return `(r, s)`. -/
def sign (xc : Point → ℕ) (d : Scalar) (e : ℕ) (k : Scalar) : Option (Scalar × Scalar) :=
  let R := scalarMul k G
  let r : Scalar := ((xc R : ℕ) : Scalar)
  if r = 0 then none
  else
    let s : Scalar := k⁻¹ * ((e : Scalar) + r * d)
    if s = 0 then none else some (r, s)

/-- Modelled from the spec (section 4.5, Verify): reject if `r` or `s`
is `0` or `≥ n` (mandatory range check before any further math); reject
if `Q` is the identity; compute `w = s⁻¹`, `u1 = e·w`, `u2 = r·w`,
`X = u1·G + u2·Q`; reject if `X` is the identity; accept iff
`X.x mod n = r`.  `r` and `s` are taken as the raw integers decoded
from the 64-byte buffer. -/
def verify (xc : Point → ℕ) (Q : Point) (e : ℕ) (r s : ℕ) : Bool :=
  if r = 0 ∨ s = 0 ∨ n ≤ r ∨ n ≤ s then false
  else if Q = identity then false
  else
    let w : Scalar := (s : Scalar)⁻¹
    let u1 : Scalar := (e : Scalar) * w
    let u2 : Scalar := (r : Scalar) * w
    let X : Point := pointAdd (scalarMul u1 G) (scalarMul u2 Q)
    if X = identity then false
    else decide (xc X % n = r)

/-- Modelled from the spec (section 4.5, Keygen): draw the scalar `d`
from the Random Scalar Source (the head of the stream of draw attempts;
`none` means the entropy source is unavailable), compute `Q = d·G`, and
return the pair; the failure is surfaced immediately, with no internal
retry (only the first draw attempt is ever consumed). -/
def keygen (src : List (Option ℕ)) : Except Fault (Point × Scalar) :=
  match src with
  | [] => Except.error Fault.RandomUnavailable
  | none :: _ => Except.error Fault.RandomUnavailable
  | some d :: _ => Except.ok (scalarMul (d : Scalar) G, (d : Scalar))

end Model

/-- Claim C1: for every key pair produced by a successful keygen
(secret scalar `d` in `[1, n-1]`) and every digest `e`, signing the
digest with any successfully drawn nonce `k` (a scalar in `[1, n-1]`
that did not hit the `r = 0` / `s = 0` retry branches) and then
verifying the resulting signature against the public key `d·G` and the
same digest accepts.  The statement holds for every x-coordinate map
`xc`, in particular for the real affine x-coordinate of the curve. -/
theorem sign_verify_roundtrip (xc : Model.Point → ℕ) (d : Model.Scalar) (e : ℕ)
    (k : Model.Scalar) (hd : d ≠ 0) (hk : k ≠ 0) (r s : Model.Scalar)
    (hsign : Model.sign xc d e k = some (r, s)) :
    Model.verify xc (Model.scalarMul d Model.G) e r.val s.val = true := by
  simp only [Model.sign, Model.scalarMul, Model.G, mul_one] at hsign
  split_ifs at hsign with hr0 hs0
  rw [Option.some_inj, Prod.mk.injEq] at hsign
  obtain ⟨hr, hs⟩ := hsign
  subst hr hs
  set r : Model.Scalar := ((xc k : ℕ) : Model.Scalar) with hr_def
  set s : Model.Scalar := k⁻¹ * ((e : Model.Scalar) + r * d) with hs_def
  have hc_ne : ((e : Model.Scalar) + r * d) ≠ 0 := by
    intro h
    exact hs0 (by rw [hs_def, h, mul_zero])
  have hr_cast : ((r.val : ℕ) : Model.Scalar) = r := ZMod.natCast_rightInverse r
  have hs_cast : ((s.val : ℕ) : Model.Scalar) = s := ZMod.natCast_rightInverse s
  have h1 : ¬(r.val = 0 ∨ s.val = 0 ∨ Model.n ≤ r.val ∨ Model.n ≤ s.val) := by
    push_neg
    refine ⟨?_, ?_, ?_, ?_⟩
    · simpa [ZMod.val_eq_zero] using hr0
    · simpa [ZMod.val_eq_zero] using hs0
    · exact ZMod.val_lt r
    · exact ZMod.val_lt s
  simp only [Model.verify, Model.pointAdd, Model.scalarMul, Model.G, Model.identity, mul_one]
  rw [if_neg h1, if_neg hd, hr_cast, hs_cast]
  have hsinv : s⁻¹ = k * ((e : Model.Scalar) + r * d)⁻¹ := by
    rw [hs_def, mul_inv, inv_inv]
  have hX : (e : Model.Scalar) * s⁻¹ + r * s⁻¹ * d = k := by
    rw [hsinv]
    calc (e : Model.Scalar) * (k * ((e : Model.Scalar) + r * d)⁻¹)
          + r * (k * ((e : Model.Scalar) + r * d)⁻¹) * d
        = k * (((e : Model.Scalar) + r * d)⁻¹ * ((e : Model.Scalar) + r * d)) := by ring
      _ = k * 1 := by rw [inv_mul_cancel₀ hc_ne]
      _ = k := mul_one k
  rw [if_neg (hX ▸ hk : ¬((e : Model.Scalar) * s⁻¹ + r * s⁻¹ * d = 0)), hX]
  simp only [decide_eq_true_eq]
  rw [hr_def, ZMod.val_natCast]

/-- Witness for the round-trip theorem: concrete instance with
`xc = ZMod.val`, `d = 1`, `e = 0`, `k = 1`, signature `(1, 1)`. -/
theorem sign_verify_roundtrip_witness :
    Model.verify ZMod.val (Model.scalarMul 1 Model.G) 0
      ((1 : Model.Scalar).val) ((1 : Model.Scalar).val) = true := by
  haveI : Fact (1 < Model.n) := ⟨by norm_num [Model.n]⟩
  apply sign_verify_roundtrip ZMod.val 1 0 1 one_ne_zero one_ne_zero 1 1
  simp [Model.sign, Model.scalarMul, Model.G, ZMod.val_one]

/-! ## Executable P-256 model

Modelled from the spec (sections 3, 4.1-4.3, Buffer Codec): concrete
curve arithmetic for NIST P-256 in Jacobian coordinates over `ℕ` with
explicit reduction `% p`, used to settle the concrete test-vector claim
and the malformed-encoding claim.  The missing C core
(`dep/easy-ecc/ecc.c`) implements this arithmetic; all definitions
follow the algorithms stated in the spec. -/

namespace P256

/-- Modelled from the spec: the P-256 field prime
`p = 2^256 - 2^224 + 2^192 + 2^96 - 1` (section 3). -/
def p : ℕ := 115792089210356248762697446949407573530086143415290314195533631308867097853951

/-- Modelled from the spec: the curve order (same constant as `Model.n`). -/
def n : ℕ := Model.n

/-- Modelled from the spec: the curve coefficient `b` of `y² = x³ - 3x + b` for P-256 (section 3). -/
def b : ℕ := 41058363725152142129326129780047268409114441015993725554835256314039467401291

/-- Modelled from the spec: the base-point x-coordinate (section 3, `G` a fixed public constant). -/
def Gx : ℕ := 48439561293906451759052585252797914202762949526041747995844080717082404635286

/-- Modelled from the spec: the base-point y-coordinate. -/
def Gy : ℕ := 36134250956749795798585127919587881956611106672985015071877198253568414405109

/-- Modelled from the spec (section 4.1): modular inverse by Fermat
exponentiation `a ^ (m - 2) mod m` (for prime modulus `m`), the spec's
data-independent-time inverse. -/
def invMod (a m : ℕ) : ℕ := powMod 257 a (m - 2) m

/-- Modelled from the spec (section 3, Point): a point in Jacobian
projective coordinates; `z = 0` encodes the identity. -/
structure JPoint where
  x : ℕ
  y : ℕ
  z : ℕ
deriving DecidableEq, Repr

/-- The identity (point at infinity). -/
def jIdentity : JPoint := ⟨0, 1, 0⟩

/-- The base point `G` in Jacobian coordinates. -/
def G : JPoint := ⟨Gx, Gy, 1⟩

/-- Modelled from the spec (section 4.3, `double`): Jacobian point
doubling, valid for any input including the identity; uses the `a = -3`
shortcut `M = 3(X - Z²)(X + Z²)`. -/
def jDouble : JPoint → JPoint
  | ⟨x, y, z⟩ =>
    if z = 0 ∨ y = 0 then jIdentity
    else
      let zz := z * z % p
      let S := 4 * x * y % p * y % p
      let M := 3 * ((x + p - zz) % p) * ((x + zz) % p) % p
      let X3 := (M * M + 2 * p * p - 2 * S) % p
      let yy := y * y % p
      let Y3 := (M * ((S + p - X3) % p) + 8 * p * p - 8 * (yy * yy % p)) % p
      let Z3 := 2 * y * z % p
      ⟨X3, Y3, Z3⟩

/-- Modelled from the spec (section 4.3, `add`): Jacobian point
addition with the mandatory special cases: either operand the identity,
`P = Q` (doubling) and `P = -Q` (identity). -/
def jAdd : JPoint → JPoint → JPoint
  | P, Q =>
    if P.z = 0 then Q
    else if Q.z = 0 then P
    else
      let z1z1 := P.z * P.z % p
      let z2z2 := Q.z * Q.z % p
      let U1 := P.x * z2z2 % p
      let U2 := Q.x * z1z1 % p
      let S1 := P.y * (z2z2 * Q.z % p) % p
      let S2 := Q.y * (z1z1 * P.z % p) % p
      if U1 = U2 then
        if S1 = S2 then jDouble P else jIdentity
      else
        let H := (U2 + p - U1) % p
        let R := (S2 + p - S1) % p
        let HH := H * H % p
        let HHH := HH * H % p
        let V := U1 * HH % p
        let X3 := (R * R + 3 * p - HHH - 2 * V) % p
        let Y3 := (R * ((V + p - X3) % p) + p - S1 * HHH % p) % p
        let Z3 := H * P.z % p * Q.z % p
        ⟨X3, Y3, Z3⟩

/-- Modelled from the spec (section 4.3, `scalarMultiply`): binary
least-significant-bit-first double-and-add loop with structural
fuel. -/
def jMulAux : ℕ → ℕ → JPoint → JPoint → JPoint
  | 0, _, _, acc => acc
  | f + 1, k, base, acc =>
    jMulAux f (k / 2) (jDouble base) (if k % 2 = 1 then jAdd acc base else acc)

/-- Modelled from the spec: scalar multiplication `k · P` (256 fixed
iterations). -/
def jMul (k : ℕ) (P : JPoint) : JPoint := jMulAux 256 k P jIdentity

/-- Modelled from the spec (section 4.3): conversion to affine
coordinates; fails (`none`) when `Z = 0`. -/
def toAffine (P : JPoint) : Option (ℕ × ℕ) :=
  if P.z = 0 then none
  else
    let zi := invMod P.z p
    let zi2 := zi * zi % p
    some (P.x * zi2 % p, P.y * (zi2 * zi % p) % p)

/-- Modelled from the spec (section 4.3, `isOnCurve`): curve-equation
check `y² ≡ x³ - 3x + b (mod p)`, used to validate externally supplied
public keys. -/
def onCurve (x y : ℕ) : Bool :=
  decide (y * y % p = (x * x % p * x + b + 3 * p - 3 * x) % p)

/-- Modelled from the spec (Buffer Codec, sections 3 and 6): decode a
33-byte compressed public key `tag ‖ x` (tag `0x02`/`0x03` for even/odd
`y`); reject wrong length, wrong tag, out-of-range `x`, and any `x` not
on the curve (the candidate `y` is the square root
`(x³-3x+b)^((p+1)/4)` and the curve equation is checked, which rejects
quadratic non-residues).  A decoded key is never the identity. -/
def decodePublic (l : List ℕ) : Option (ℕ × ℕ) :=
  match l with
  | tag :: rest =>
    if rest.length = 32 ∧ (tag = 2 ∨ tag = 3) then
      let x := beNat rest
      if x < p then
        let y0 := powMod 257 ((x * x % p * x + b + 3 * p - 3 * x) % p) ((p + 1) / 4) p
        let y := if y0 % 2 = tag % 2 then y0 else (p - y0) % p
        if onCurve x y then some (x, y) else none
      else none
    else none
  | [] => none

/-- Modelled from the spec (sections 3 and 6): decode a 32-byte
big-endian private key; reject wrong length and scalars outside
`[1, n-1]`. -/
def decodeSecret (l : List ℕ) : Option ℕ :=
  if l.length = 32 then
    let d := beNat l
    if d = 0 ∨ n ≤ d then none else some d
  else none

/-- Modelled from the spec (sections 3 and 6): decode a 64-byte
signature `r ‖ s` (each 32 bytes big-endian); reject wrong length and
components outside `[1, n-1]`. -/
def decodeSignature (l : List ℕ) : Option (ℕ × ℕ) :=
  if l.length = 64 then
    let r := beNat (l.take 32)
    let s := beNat (l.drop 32)
    if r = 0 ∨ s = 0 ∨ n ≤ r ∨ n ≤ s then none else some (r, s)
  else none

/-- Modelled from the spec (section 4.5, Sign), concrete arithmetic:
`R = k·G`, `r = R.x mod n`, `s = k⁻¹·(e + r·d) mod n`; `none` when the
nonce draw must be rejected (`r = 0` or `s = 0`). -/
def sign (d e k : ℕ) : Option (ℕ × ℕ) :=
  match toAffine (jMul k G) with
  | none => none
  | some R =>
    let r := R.1 % n
    if r = 0 then none
    else
      let s := invMod k n * ((e % n + r * d) % n) % n
      if s = 0 then none else some (r, s)

/-- Modelled from the spec (section 4.5, Verify), concrete arithmetic
on a decoded public-key point. -/
def verify (Q : ℕ × ℕ) (e : ℕ) (r s : ℕ) : Bool :=
  if r = 0 ∨ s = 0 ∨ n ≤ r ∨ n ≤ s then false
  else
    let w := invMod s n
    let u1 := e % n * w % n
    let u2 := r * w % n
    match toAffine (jAdd (jMul u1 G) (jMul u2 ⟨Q.1, Q.2, 1⟩)) with
    | none => false
    | some X => decide (X.1 % n = r)

/-- Modelled from the spec (sections 6, 7): byte-buffer level signing.
A buffer that does not decode to a valid private key is rejected with
`MalformedEncoding` before any cryptographic operation; on valid input
the ECDSA signature (or the nonce-rejection outcome `none`) is
returned. -/
def signBytes (sk digest : List ℕ) (k : ℕ) : Except Fault (Option (ℕ × ℕ)) :=
  match decodeSecret sk with
  | none => Except.error Fault.MalformedEncoding
  | some d => Except.ok (sign d (beNat digest) k)

/-- Modelled from the spec (sections 6, 7): byte-buffer level
verification.  Buffers that do not decode to a valid public key or
signature are rejected with `MalformedEncoding` before any
cryptographic operation. -/
def verifyBytes (pk digest sg : List ℕ) : Except Fault Bool :=
  match decodePublic pk with
  | none => Except.error Fault.MalformedEncoding
  | some Q =>
    match decodeSignature sg with
    | none => Except.error Fault.MalformedEncoding
    | some rs => Except.ok (verify Q (beNat digest) rs.1 rs.2)

end P256

/-- Fixed test-vector secret key bytes
`0xab7328e4bd9bead475dd7cd899c1ba9118c8b1fcb90c93a8858537d36e3c1e98`. -/
def tvSecretBytes : List ℕ :=
  [171, 115, 40, 228, 189, 155, 234, 212, 117, 221, 124, 216, 153, 193, 186, 145,
   24, 200, 177, 252, 185, 12, 147, 168, 133, 133, 55, 211, 110, 60, 30, 152]

/-- Fixed test-vector public key bytes
`0x039458dd87bdb47de48bb9470b8c25cb5f9406907c45d865265aea38d6b0bb3780`. -/
def tvPublicBytes : List ℕ :=
  [3, 148, 88, 221, 135, 189, 180, 125, 228, 139, 185, 71, 11, 140, 37, 203,
   95, 148, 6, 144, 124, 69, 216, 101, 38, 90, 234, 56, 214, 176, 187, 55, 128]

/-- Test digest: 32 bytes, bytes 6, 8, 10 set to 7, 9, 11, zero
elsewhere. -/
def tvDigestBytes : List ℕ :=
  [0, 0, 0, 0, 0, 0, 7, 0, 9, 0, 11, 0, 0, 0, 0, 0,
   0, 0, 0, 0, 0, 0, 0, 0, 0, 0, 0, 0, 0, 0, 0, 0]

/-- A concrete nonce draw for the test-vector signature. -/
def tvNonce : ℕ := 8234104122482341265491137074636836252947884782870784360943022469005013929455

/-- The signature component `r` produced with nonce `tvNonce`. -/
def tvR : ℕ := 32164115044586727380168565265599487335087082516341636821340533322376231416140

/-- The signature component `s` produced with nonce `tvNonce`. -/
def tvS : ℕ := 20133461532634746099567043892471153777769950606452665529131078390519657057185

/-- Claim C2: for the fixed test-vector secret key and the digest with
bytes 7, 9, 11 at indices 6, 8, 10 (zero elsewhere), a signature
produced by sign (here with the explicit nonce draw `tvNonce`; the
repository's test draws the nonce from the system entropy source)
verifies successfully against the fixed 33-byte public key; moreover
that fixed public key is exactly the curve point `d·G` derived from the
secret key, computed with concrete P-256 arithmetic. -/
theorem precomputed_vector_ok :
    P256.signBytes tvSecretBytes tvDigestBytes tvNonce = Except.ok (some (tvR, tvS)) ∧
    P256.verifyBytes tvPublicBytes tvDigestBytes
      (natToBytesBE 32 tvR ++ natToBytesBE 32 tvS) = Except.ok true ∧
    P256.toAffine (P256.jMul (beNat tvSecretBytes) P256.G) =
      P256.decodePublic tvPublicBytes := by
  refine ⟨rfl, rfl, by decide⟩

/-- Claim C3: for every behaviour of the underlying C routine and every
caller state, the wrapper's `verify` returns exactly `Ok(())` or
`Err(())` — a boolean-equivalent result, never a third outcome — and
likewise the modelled protocol-level verify is a total boolean
function. -/
theorem verify_boolean_outcome (cv : secp256r1.CallerState → Int)
    (st : secp256r1.CallerState) (xc : Model.Point → ℕ) (Q : Model.Point) (e r s : ℕ) :
    ((secp256r1.verify cv st).2 = Except.ok () ∨
      (secp256r1.verify cv st).2 = Except.error ()) ∧
    (Model.verify xc Q e r s = true ∨ Model.verify xc Q e r s = false) := by
  constructor
  · unfold secp256r1.verify secp256r1.wrapResult
    split_ifs <;> simp
  · cases h : Model.verify xc Q e r s
    · exact Or.inr rfl
    · exact Or.inl rfl

/-- Claim C4: verify rejects any signature whose `r` or `s` component
is `0` or at least the curve order `n`, for every public key and
digest, before performing any further signature math — both in the
protocol-layer model and in the concrete P-256 model. -/
theorem verify_rejects_out_of_range (xc : Model.Point → ℕ) (Q : Model.Point)
    (Q2 : ℕ × ℕ) (e r s : ℕ)
    (h : r = 0 ∨ s = 0 ∨ Model.n ≤ r ∨ Model.n ≤ s) :
    Model.verify xc Q e r s = false ∧ P256.verify Q2 e r s = false := by
  constructor
  · unfold Model.verify
    rw [if_pos h]
  · unfold P256.verify
    have h' : r = 0 ∨ s = 0 ∨ P256.n ≤ r ∨ P256.n ≤ s := h
    rw [if_pos h']

/-- Witness for the range-check rejection at `r = 0`, `s = 1`. -/
theorem verify_rejects_out_of_range_witness :
    Model.verify ZMod.val Model.G 0 0 1 = false ∧ P256.verify (0, 0) 0 0 1 = false :=
  verify_rejects_out_of_range ZMod.val Model.G (0, 0) 0 0 1 (Or.inl rfl)

/-- Claim C5: a byte buffer that does not decode to a valid private
key, public key, or signature (wrong length, point not on curve, or
scalar out of range) is rejected with `MalformedEncoding`, and the
byte-level sign/verify never reach the ECDSA math on such inputs —
their result is exactly the `MalformedEncoding` fault. -/
theorem malformed_encoding_rejected (sk pk sg digest : List ℕ) (k : ℕ) :
    (P256.decodeSecret sk = none →
      P256.signBytes sk digest k = Except.error Fault.MalformedEncoding) ∧
    (P256.decodePublic pk = none →
      P256.verifyBytes pk digest sg = Except.error Fault.MalformedEncoding) ∧
    (P256.decodeSignature sg = none →
      P256.verifyBytes pk digest sg = Except.error Fault.MalformedEncoding) := by
  refine ⟨?_, ?_, ?_⟩
  · intro h
    unfold P256.signBytes
    rw [h]
  · intro h
    unfold P256.verifyBytes
    rw [h]
  · intro h
    unfold P256.verifyBytes
    cases hq : P256.decodePublic pk
    · rfl
    · rw [h]

/-- Witness for malformed-encoding rejection: empty buffers (wrong
length) are rejected by all three decoders. -/
theorem malformed_encoding_rejected_witness :
    P256.signBytes [] [] 0 = Except.error Fault.MalformedEncoding ∧
    P256.verifyBytes [] [] [] = Except.error Fault.MalformedEncoding :=
  ⟨(malformed_encoding_rejected [] [] [] [] 0).1 (by decide),
    (malformed_encoding_rejected [] [] [] [] 0).2.1 (by decide)⟩

/-- Claim C6: the interface operates over fixed-size buffers: a public
key is exactly 33 bytes (1-byte tag plus 32-byte coordinate), a private
key exactly 32 bytes, a signature exactly 64 bytes laid out as the
32-byte big-endian `r` followed by the 32-byte big-endian `s`, with no
ASN.1/DER wrapping. -/
theorem buffer_layout :
    (∀ pk : secp256r1.Public, pk.val.length = 33) ∧
    (∀ sk : secp256r1.Secret, sk.val.length = 32) ∧
    (∀ sg : secp256r1.Signature, sg.val.length = 64) ∧
    (∀ tag x : ℕ, (tag :: natToBytesBE 32 x).length = 1 + 32) ∧
    (∀ r s : ℕ,
      (natToBytesBE 32 r ++ natToBytesBE 32 s).length = 64 ∧
      (natToBytesBE 32 r ++ natToBytesBE 32 s).take 32 = natToBytesBE 32 r ∧
      (natToBytesBE 32 r ++ natToBytesBE 32 s).drop 32 = natToBytesBE 32 s) := by
  refine ⟨fun pk => pk.property, fun sk => sk.property, fun sg => sg.property, ?_, ?_⟩
  · intro tag x
    simp [natToBytesBE_length]
  · intro r s
    refine ⟨?_, ?_, ?_⟩
    · simp [natToBytesBE_length]
    · rw [List.take_left' (natToBytesBE_length 32 r)]
    · rw [List.drop_left' (natToBytesBE_length 32 r)]

/-- Claim C7: keygen fails exactly when the random-scalar source is
unavailable, the failure is the `RandomUnavailable` fault surfaced
immediately without any internal retry (the result depends only on the
first draw attempt of the source's stream), and on success the
complete pair `(d·G, d)` is returned. -/
theorem keygen_random_failure (oa : Option ℕ) (rest : List (Option ℕ)) :
    Model.keygen [] = Except.error Fault.RandomUnavailable ∧
    Model.keygen (oa :: rest) = Model.keygen [oa] ∧
    (Model.keygen (oa :: rest) = Except.error Fault.RandomUnavailable ↔ oa = none) ∧
    ((∃ f, Model.keygen (oa :: rest) = Except.error f) ↔ oa = none) ∧
    (∀ d : ℕ, oa = some d → Model.keygen (oa :: rest) =
      Except.ok (Model.scalarMul (d : Model.Scalar) Model.G, (d : Model.Scalar))) := by
  cases oa <;> simp [Model.keygen]

/-- Witness for the keygen theorem: a successful draw of the scalar 5
yields the complete pair, and an unavailable source yields
`RandomUnavailable`. -/
theorem keygen_random_failure_witness :
    Model.keygen [some 5] =
      Except.ok (Model.scalarMul ((5 : ℕ) : Model.Scalar) Model.G, ((5 : ℕ) : Model.Scalar)) ∧
    Model.keygen [none] = Except.error Fault.RandomUnavailable :=
  ⟨(keygen_random_failure (some 5) []).2.2.2.2 5 rfl,
    (keygen_random_failure none []).2.2.1.mpr rfl⟩

/-- Claim C8: signing is nondeterministic across calls because the
nonce is a fresh explicit draw, and the signature determines the nonce:
two sign calls on the same key and digest that return the same
signature must have drawn the same nonce.  Hence distinct nonce draws
give distinct signatures, and a signature collision is exactly a nonce
collision (probability ~ 1/n for independent uniform draws). -/
theorem sign_nonce_injective (xc : Model.Point → ℕ) (d : Model.Scalar) (e : ℕ)
    (k k' : Model.Scalar) (rs : Model.Scalar × Model.Scalar)
    (h1 : Model.sign xc d e k = some rs) (h2 : Model.sign xc d e k' = some rs) :
    k = k' := by
  simp only [Model.sign, Model.scalarMul, Model.G, mul_one] at h1 h2
  split_ifs at h1 with hr1 hs1
  split_ifs at h2 with hr2 hs2
  rw [Option.some_inj] at h1 h2
  have hfst := congrArg Prod.fst h1
  have hfst2 := congrArg Prod.fst h2
  have hsnd := congrArg Prod.snd h1
  have hsnd2 := congrArg Prod.snd h2
  simp only at hfst hfst2 hsnd hsnd2
  have hr_eq : ((xc k : ℕ) : Model.Scalar) = ((xc k' : ℕ) : Model.Scalar) := by
    rw [hfst, hfst2]
  have hs_eq : k⁻¹ * ((e : Model.Scalar) + ((xc k : ℕ) : Model.Scalar) * d) =
      k'⁻¹ * ((e : Model.Scalar) + ((xc k' : ℕ) : Model.Scalar) * d) := by
    rw [hsnd, hsnd2]
  rw [← hr_eq] at hs_eq
  have hc_ne : ((e : Model.Scalar) + ((xc k : ℕ) : Model.Scalar) * d) ≠ 0 := by
    intro h0
    rw [h0, mul_zero] at hs1
    exact hs1 rfl
  have hinv : k⁻¹ = k'⁻¹ := mul_right_cancel₀ hc_ne hs_eq
  exact inv_injective hinv

/-- Witness for nonce injectivity at the concrete instance
`d = 1`, `e = 0`, `k = k' = 1`, signature `(1, 1)`. -/
theorem sign_nonce_injective_witness : (1 : Model.Scalar) = 1 := by
  haveI : Fact (1 < Model.n) := ⟨by norm_num [Model.n]⟩
  exact sign_nonce_injective ZMod.val 1 0 1 1 (1, 1)
    (by simp [Model.sign, Model.scalarMul, Model.G, ZMod.val_one])
    (by simp [Model.sign, Model.scalarMul, Model.G, ZMod.val_one])

/-- Claim C9: no operation mutates caller-visible state other than its
designated output, for every behaviour of the underlying C routine:
verify leaves the whole state unchanged, sign writes only the signature
buffer, keygen writes only the public- and secret-key buffers. -/
theorem no_caller_state_mutation (ck : secp256r1.CallerState → Int × List ℕ × List ℕ)
    (cs : secp256r1.CallerState → Int × List ℕ) (cv : secp256r1.CallerState → Int)
    (st : secp256r1.CallerState) :
    (secp256r1.verify cv st).1 = st ∧
    ((secp256r1.sign cs st).1.secBuf = st.secBuf ∧
      (secp256r1.sign cs st).1.msgBuf = st.msgBuf ∧
      (secp256r1.sign cs st).1.pubBuf = st.pubBuf) ∧
    ((secp256r1.keygen ck st).1.msgBuf = st.msgBuf ∧
      (secp256r1.keygen ck st).1.sigBuf = st.sigBuf) :=
  ⟨rfl, ⟨rfl, rfl, rfl⟩, rfl, rfl⟩

/-- Claim C10: each wrapper returns `Ok(())` exactly when its C routine
returns the integer 1; every other return value (0, negative, or
greater than 1) maps to `Err(())`, and both failure modes collapse to
the same unit error at the public interface. -/
theorem c_result_mapping (ck : secp256r1.CallerState → Int × List ℕ × List ℕ)
    (cs : secp256r1.CallerState → Int × List ℕ) (cv : secp256r1.CallerState → Int)
    (st : secp256r1.CallerState) :
    ((secp256r1.keygen ck st).2 = Except.ok () ↔ (ck st).1 = 1) ∧
    ((secp256r1.sign cs st).2 = Except.ok () ↔ (cs st).1 = 1) ∧
    ((secp256r1.verify cv st).2 = Except.ok () ↔ cv st = 1) ∧
    (∀ x : Int, x ≠ 1 → secp256r1.wrapResult x = Except.error ()) ∧
    (∀ x y : Int, x ≠ 1 → y ≠ 1 → secp256r1.wrapResult x = secp256r1.wrapResult y) := by
  refine ⟨?_, ?_, ?_, ?_, ?_⟩
  · simp only [secp256r1.keygen, secp256r1.wrapResult]
    split_ifs with h <;> simp [h]
  · simp only [secp256r1.sign, secp256r1.wrapResult]
    split_ifs with h <;> simp [h]
  · simp only [secp256r1.verify, secp256r1.wrapResult]
    split_ifs with h <;> simp [h]
  · intro x hx
    unfold secp256r1.wrapResult
    rw [if_neg hx]
  · intro x y hx hy
    unfold secp256r1.wrapResult
    rw [if_neg hx, if_neg hy]

/-- Witness for the result mapping: C results 0, -1 and 2 all map to
the same `Err(())` value. -/
theorem c_result_mapping_witness :
    secp256r1.wrapResult 0 = Except.error () ∧
    secp256r1.wrapResult (-1) = secp256r1.wrapResult 2 :=
  ⟨(c_result_mapping (fun _ => (1, [], [])) (fun _ => (1, [])) (fun _ => 1)
      ⟨[], [], [], []⟩).2.2.2.1 0 (by decide),
    (c_result_mapping (fun _ => (1, [], [])) (fun _ => (1, [])) (fun _ => 1)
      ⟨[], [], [], []⟩).2.2.2.2 (-1) 2 (by decide) (by decide)⟩
